import Mathlib

/-!
Verification of the Trend-Radar scoring/ranking/cache core.

The definitions below are a shallow embedding of the Python source:
`arxiv_papers.py` (paper scoring and ranking), `hacker_news.py` (story
scoring and ranking, time-windowed fetch cache) and `app.py` (background
cache refresh sweep).  Timestamps are rational numbers of seconds since
the epoch; Python floats become exact rationals.
-/

/-- A fetched ArXiv paper (the fields of the `arxiv` result objects that
`arxiv_papers.py` reads): title, abstract, author names, publication time
(seconds since epoch), optional PDF URL, entry id and category tags. -/
structure Paper where
  title : String
  summary : String
  authors : List String
  published : ℚ
  pdfUrl : Option String
  entryId : String
  categories : List String
deriving DecidableEq

/-- A fetched Hacker News story (the fields of the dicts built by
`fetch_hn_stories` that the scoring functions read). -/
structure Story where
  title : String
  points : Nat
  commentsCount : Nat
  published : ℚ
deriving DecidableEq

/-- Python `str.lower()` (codepoint-wise lowercasing). -/
def pyLower (s : String) : String := ⟨s.data.map Char.toLower⟩

/-- `startsWith needle hay`: the char list `needle` is an initial segment
of `hay`.  Helper for Python substring containment. -/
def startsWith : List Char → List Char → Bool
  | [], _ => true
  | _ :: _, [] => false
  | a :: as, b :: bs => a == b && startsWith as bs

/-- `occursIn needle hay`: `needle` occurs contiguously inside `hay`
(Python `needle in hay` on strings, via char lists). -/
def occursIn (needle : List Char) : List Char → Bool
  | [] => needle.isEmpty
  | c :: rest => startsWith needle (c :: rest) || occursIn needle rest

/-- Python `needle in hay` for strings. -/
def strContains (hay needle : String) : Bool :=
  occursIn needle.toList hay.toList

/-- The punctuation characters stripped by `extract_trending_keywords` and
`calculate_rising_score` (Python `word.strip(".,;:()[]\x7b\x7d\"''")`),
given by codepoint: `. , ; : ( ) [ ] brace brace double-quote quote`. -/
def punctChars : List Char :=
  [46, 44, 59, 58, 40, 41, 91, 93, 123, 125, 34, 39].map Char.ofNat

/-- Python `word.strip(chars)`: drop leading and trailing punctuation. -/
def stripEdges (s : String) : String :=
  ⟨((s.toList.dropWhile (fun c => punctChars.contains c)).reverse.dropWhile
      (fun c => punctChars.contains c)).reverse⟩

/-- Python `text.split()`: split on whitespace, dropping empty pieces. -/
def pySplitWs (s : String) : List String :=
  (s.split (fun c => c.isWhitespace)).filter (fun w => !(w == ""))

/-- `calculate_hot_score` (arxiv_papers.py lines 180-214): weighted blend of
recency `100 * (1 / (time_diff_days + 1))` (age in days floored at 0.1),
author activity `min(100, author_count * 5)` and trending-keyword relevance
`min(100, keyword_count * 10)`, with weights 0.5 / 0.2 / 0.3, clamped to
[0, 100].  The corpus context (`author_activity`, `trending_keywords`) is
taken as a parameter. -/
def calculate_hot_score (p : Paper) (authorActivity : String → ℕ)
    (trendingKeywords : List String) (now : ℚ) : ℚ :=
  let timeDiffDays := max ((now - p.published) / (3600 * 24)) (1 / 10)
  let recencyScore := 100 * (1 / (timeDiffDays + 1))
  let authorCount := (p.authors.map authorActivity).sum
  let authorScore := min 100 ((authorCount : ℚ) * 5)
  let text := pyLower (p.title ++ " " ++ p.summary)
  let keywordCount := (trendingKeywords.filter (fun k => strContains text k)).length
  let keywordScore := min 100 ((keywordCount : ℚ) * 10)
  let score := 0.5 * recencyScore + 0.3 * keywordScore + 0.2 * authorScore
  max 0 (min 100 score)

/-- `calculate_rising_score` (arxiv_papers.py lines 217-253): piecewise
recency (linear 100 to 0 over 30 days, then 50 decaying to 0 over 335 more
days, floored at 0) blended 0.6 / 0.4 with novelty
`min(100, 2 * |significant words not among the trending keywords|)`,
clamped to [0, 100]. -/
def calculate_rising_score (p : Paper) (trendingKeywords : List String)
    (now : ℚ) : ℚ :=
  let timeDiffDays := max ((now - p.published) / (3600 * 24)) (1 / 10)
  let recencyScore :=
    if timeDiffDays ≤ 30 then 100 * (1 - timeDiffDays / 30)
    else max 0 (50 * (1 - (timeDiffDays - 30) / 335))
  let text := pyLower (p.title ++ " " ++ p.summary)
  let words :=
    (((pySplitWs text).filter (fun w => 4 < w.length)).map stripEdges).dedup
  let uncommon := words.filter (fun w => !(trendingKeywords.contains w))
  let noveltyScore := min 100 ((uncommon.length : ℚ) * 2)
  let score := 0.6 * recencyScore + 0.4 * noveltyScore
  max 0 (min 100 score)

/-- `calculate_new_score` (arxiv_papers.py lines 256-288): pure recency,
three-segment piecewise linear in the age in days (floored at 0.1):
100 to 80 over days 0-30, 80 to 30 over days 30-90, 30 to 0 over days
90-365 (the overshoot capped at 275 days past 90), clamped to [0, 100]. -/
def calculate_new_score (p : Paper) (now : ℚ) : ℚ :=
  let timeDiffDays := max ((now - p.published) / (3600 * 24)) (1 / 10)
  let score :=
    if timeDiffDays ≤ 30 then 100 - timeDiffDays / 30 * 20
    else if timeDiffDays ≤ 90 then 80 - (timeDiffDays - 30) / 60 * 50
    else 30 - min (timeDiffDays - 90) 275 / 275 * 30
  max 0 (min 100 score)

/-- A formatted display record for a paper (`format_paper`,
arxiv_papers.py lines 291-313). -/
structure FormattedPaper where
  title : String
  url : String
  authors : List String
  published : ℚ
  summary : String
  categories : List String
  score : ℚ
  paperId : String
deriving DecidableEq

/-- `format_paper` (arxiv_papers.py lines 291-313): display record with the
Python-`or` URL fallback (`paper.pdf_url or paper.entry_id`, falsy when the
string is empty), the summary truncated to 150 characters plus an ellipsis
when longer, and the paper id split off the entry URL. -/
def format_paper (p : Paper) (score : ℚ) : FormattedPaper :=
  { title := p.title
    url := match p.pdfUrl with
      | some u => if u = "" then p.entryId else u
      | none => p.entryId
    authors := p.authors
    published := p.published
    summary :=
      if 150 < p.summary.length then p.summary.take 150 ++ "..." else p.summary
    categories := p.categories
    score := score
    paperId := (p.entryId.splitOn "/").getLastD "" }

/-- The descending-by-score sort used by both ranking pipelines
(`sorted(..., key=lambda x: x[1], reverse=True)` at arxiv_papers.py line 74
and hacker_news.py lines 225, 280).  Python's `sorted` is a stable sort;
`List.mergeSort` with the left-biased comparator `b.2 ≤ a.2` is its model. -/
def sortByScoreDesc {α : Type} (l : List (α × ℚ)) : List (α × ℚ) :=
  l.mergeSort (fun a b => decide (b.2 ≤ a.2))

/-- The scoring branch of `get_trending_arxiv_papers` (arxiv_papers.py
lines 63-69): `"hot"` and `"rising"` are matched on the lowercased method
name, every other method falls through to the `new` score. -/
def score_for_method (sortMethod : String) (authorActivity : String → ℕ)
    (trendingKeywords : List String) (now : ℚ) (p : Paper) : ℚ :=
  if pyLower sortMethod = "hot" then
    calculate_hot_score p authorActivity trendingKeywords now
  else if pyLower sortMethod = "rising" then
    calculate_rising_score p trendingKeywords now
  else
    calculate_new_score p now

/-- `get_trending_arxiv_papers` (arxiv_papers.py lines 34-86) after the
batch has been fetched: empty batch gives `[]`; otherwise every paper is
scored with the requested method, the pairs are sorted descending by score
(stably), truncated to `max_results` and formatted.  The corpus context
(`author_activity`, `trending_keywords`), computed in the source from the
same batch, is taken as a parameter: every claim quantifies over it. -/
def get_trending_arxiv_papers (sortMethod : String) (papers : List Paper)
    (authorActivity : String → ℕ) (trendingKeywords : List String)
    (now : ℚ) (maxResults : Nat) : List FormattedPaper :=
  if papers.isEmpty then []
  else
    let scored := papers.map
      (fun p => (p, score_for_method sortMethod authorActivity trendingKeywords now p))
    ((sortByScoreDesc scored).take maxResults).map (fun x => format_paper x.1 x.2)

/-- The scoring loop of `get_trending_arxiv_papers` with a fallible scorer:
the loop at lines 63-71 raises out of the function's single `try` as soon
as scoring any one paper raises, so later papers are not scored. -/
def scoreAll (score : Paper → Except Unit ℚ) :
    List Paper → Except Unit (List (Paper × ℚ))
  | [] => Except.ok []
  | p :: ps =>
    match score p with
    | Except.error e => Except.error e
    | Except.ok s =>
      match scoreAll score ps with
      | Except.error e => Except.error e
      | Except.ok rest => Except.ok ((p, s) :: rest)

/-- `get_trending_arxiv_papers` (arxiv_papers.py lines 34-86) with the
per-item scoring step abstracted as a fallible function: the whole body
sits in one `try`, whose `except` returns `[]` (lines 84-86), so any raised
scoring error empties the result. -/
def get_trending_papers_fallible (score : Paper → Except Unit ℚ)
    (papers : List Paper) (maxResults : Nat) : List FormattedPaper :=
  if papers.isEmpty then []
  else
    match scoreAll score papers with
    | Except.error _ => []
    | Except.ok scored =>
      ((sortByScoreDesc scored).take maxResults).map (fun x => format_paper x.1 x.2)

/-- `get_hot_hn_stories` (hacker_news.py lines 187-238) after the batch has
been fetched: stories with `points == 0` are skipped, the rest are scored
(`(points + comments) / time_diff_hours ** 1.8` — real exponentiation,
abstracted here as the parameter `rawScore`; none of the claims depends on
its value), sorted descending, normalised by the top score with a cap of
100, and truncated to `max_results`. -/
def get_hot_hn_stories (rawScore : Story → ℚ) (stories : List Story)
    (maxResults : Nat) : List (Story × ℚ) :=
  if stories.isEmpty then []
  else
    let scored := (stories.filter (fun s => !(s.points == 0))).map
      (fun s => (s, rawScore s))
    match sortByScoreDesc scored with
    | [] => []
    | top :: rest =>
      let maxScore := top.2
      ((top :: rest).map (fun x => (x.1, min 100 (x.2 / maxScore * 100)))).take
        maxResults

/-- The per-story raw rising score of `get_rising_hn_stories`
(hacker_news.py lines 263-275): comments-to-points ratio (points floored at
1) capped at 2, times 50, times `24 / (hours_old + 6)`. -/
def rising_raw_score (s : Story) (now : ℚ) : ℚ :=
  let r := (s.commentsCount : ℚ) / max (s.points : ℚ) 1
  let hoursOld := (now - s.published) / 3600
  min r 2 * 50 * (24 / (hoursOld + 6))

/-- `get_rising_hn_stories` (hacker_news.py lines 240-293) after the batch
has been fetched: stories with `points < 5` are skipped, the rest scored
with `rising_raw_score`, sorted descending, normalised by the top score
floored at 1 with a cap of 100, and truncated to `max_results`. -/
def get_rising_hn_stories (stories : List Story) (now : ℚ)
    (maxResults : Nat) : List (Story × ℚ) :=
  if stories.isEmpty then []
  else
    let scored := (stories.filter (fun s => !(decide (s.points < 5)))).map
      (fun s => (s, rising_raw_score s now))
    match sortByScoreDesc scored with
    | [] => []
    | top :: rest =>
      let maxScore := max 1 top.2
      ((top :: rest).map (fun x => (x.1, min 100 (x.2 / maxScore * 100)))).take
        maxResults

/-- The recency score of `get_new_hn_stories` (hacker_news.py line 323):
`max(0, 100 - hours_old * 4)` as a function of the story age in hours. -/
def hn_new_recency_score (hoursOld : ℚ) : ℚ :=
  max 0 (100 - hoursOld * 4)

/-- The state of a time-windowed source cache (`_papers_cache` +
`_last_fetch_time` in arxiv_papers.py, `_hn_stories_cache` +
`_last_fetch_time` in hacker_news.py). -/
structure SourceCache (α : Type) where
  cache : List α
  lastFetchTime : ℚ
deriving DecidableEq

/-- One call to the time-windowed source cache (`fetch_papers`,
arxiv_papers.py lines 89-133; `fetch_hn_stories`, hacker_news.py lines
24-103): when a nonempty cached batch younger than the TTL exists it is
returned untouched; otherwise the upstream fetch result `r` decides:
success replaces batch and timestamp, a raised failure leaves the state
unchanged and returns the previous batch (the empty list when there is
none).  Returns (batch, new state). -/
def fetch_with_cache {α : Type} (st : SourceCache α) (currentTime ttl : ℚ)
    (r : Except Unit (List α)) : List α × SourceCache α :=
  if !st.cache.isEmpty && decide (currentTime - st.lastFetchTime < ttl) then
    (st.cache, st)
  else
    match r with
    | Except.ok items => (items, ⟨items, currentTime⟩)
    | Except.error _ => (st.cache, st)

/-- The indices of the producers invoked during one background sweep,
starting from index `i` (`update_cache_in_background`, app.py lines
250-287): the producers are called sequentially inside one `try`, so the
first one that raises is the last one invoked — its exception is caught by
the sweep-level `except` (line 279-280), the loop logs it, sleeps and
starts the next sweep. -/
def sweep_from (i : Nat) : List (Except Unit Unit) → List Nat
  | [] => []
  | p :: ps =>
    i :: match p with
      | Except.ok _ => sweep_from (i + 1) ps
      | Except.error _ => []

/-- One sweep of `update_cache_in_background` (app.py lines 250-287) over
an abstract list of producers (each either returns or raises): the list of
indices of the producers actually invoked.  The sweep itself never
propagates an error (the model is a total function). -/
def update_cache_sweep (producers : List (Except Unit Unit)) : List Nat :=
  sweep_from 0 producers

/-- The hot score as the specification words it: the clamp to [0, 100] of
`0.5 * (100 / (age_days + 1)) + 0.3 * min(100, 10 * keyword_count)
+ 0.2 * min(100, 5 * actor_activity_sum)` with
`age_days = max(now - published in days, 0.1)`.  Written from the spec's
sentence, to be compared with `calculate_hot_score` from the source. -/
def hot_score_spec (p : Paper) (authorActivity : String → ℕ)
    (trendingKeywords : List String) (now : ℚ) : ℚ :=
  let ageDays := max ((now - p.published) / (3600 * 24)) (1 / 10)
  let recency := 100 / (ageDays + 1)
  let keywordRel := min 100 (10 * (((trendingKeywords.filter
    (fun k => strContains (pyLower (p.title ++ " " ++ p.summary)) k)).length : ℚ)))
  let actorAct := min 100 (5 * (((p.authors.map authorActivity).sum : ℚ)))
  max 0 (min 100 (0.5 * recency + 0.3 * keywordRel + 0.2 * actorAct))

/-- Concrete paper whose scoring fails in the counterexamples below. -/
def exPaperA : Paper :=
  ⟨"A", "first summary", [], 0, none, "arxiv.org/abs/1", []⟩

/-- Concrete paper whose scoring succeeds in the counterexamples below. -/
def exPaperB : Paper :=
  ⟨"B", "second summary", [], 0, none, "arxiv.org/abs/2", []⟩

/-- A scorer that raises exactly on `exPaperA` (title `"A"`). -/
def exBadScore : Paper → Except Unit ℚ :=
  fun p => if p.title = "A" then Except.error () else Except.ok 1

/-- A story with zero points (skipped by `get_hot_hn_stories`). -/
def exZeroStory : Story := ⟨"Z", 0, 3, 0⟩

/-- A story with enough points to pass both HN filters. -/
def exGoodStory : Story := ⟨"R", 7, 3, 0⟩

/-- A zero-signal paper published at the given epoch second. -/
def exNewPaper (pub : ℚ) : Paper := ⟨"n", "s", [], pub, none, "e", []⟩

/-- Five producers of which the second raises (the spec's sweep example). -/
def exProducers : List (Except Unit Unit) :=
  [Except.ok (), Except.error (), Except.ok (), Except.ok (), Except.ok ()]

lemma sortByScoreDesc_length {α : Type} (l : List (α × ℚ)) :
    (sortByScoreDesc l).length = l.length :=
  (List.mergeSort_perm l _).length_eq

lemma scoreAll_ok_of_forall (score : Paper → Except Unit ℚ) (papers : List Paper)
    (h : ∀ p ∈ papers, (score p).isOk = true) :
    ∃ l, scoreAll score papers = Except.ok l ∧ l.length = papers.length := by
  induction papers with
  | nil => exact ⟨[], rfl, rfl⟩
  | cons p ps ih =>
    have hp := h p (List.mem_cons_self p ps)
    obtain ⟨l, hl, hlen⟩ := ih (fun q hq => h q (List.mem_cons_of_mem _ hq))
    cases hs : score p with
    | error e => rw [hs] at hp; simp [Except.isOk, Except.toBool] at hp
    | ok s =>
      refine ⟨(p, s) :: l, ?_, by simp [hlen]⟩
      simp [scoreAll, hs, hl]

lemma scoreAll_error_of_exists (score : Paper → Except Unit ℚ) (papers : List Paper)
    (h : ∃ p ∈ papers, score p = Except.error ()) :
    scoreAll score papers = Except.error () := by
  induction papers with
  | nil => simp at h
  | cons p ps ih =>
    obtain ⟨q, hq, hqe⟩ := h
    cases hs : score p with
    | error e => simp [scoreAll, hs]
    | ok s =>
      rcases List.mem_cons.mp hq with hq1 | hq2
      · subst hq1; rw [hs] at hqe; exact absurd hqe (by simp)
      · simp [scoreAll, hs, ih ⟨q, hq2, hqe⟩]

lemma new_piece_mono (t1 t2 : ℚ) (h : t1 ≤ t2) :
    (if t2 ≤ 30 then 100 - t2 / 30 * 20
     else if t2 ≤ 90 then 80 - (t2 - 30) / 60 * 50
     else 30 - min (t2 - 90) 275 / 275 * 30) ≤
    (if t1 ≤ 30 then 100 - t1 / 30 * 20
     else if t1 ≤ 90 then 80 - (t1 - 30) / 60 * 50
     else 30 - min (t1 - 90) 275 / 275 * 30) := by
  split_ifs
  all_goals try linarith
  all_goals
    first
    | (have hm : (0 : ℚ) ≤ min (t2 - 90) 275 := le_min (by linarith) (by norm_num)
       linarith)
    | (have hm : min (t1 - 90) 275 ≤ min (t2 - 90) 275 :=
         min_le_min (by linarith) le_rfl
       linarith)

lemma sweep_from_shift (ps : List (Except Unit Unit)) :
    ∀ n, sweep_from n ps = (sweep_from 0 ps).map (n + ·) := by
  induction ps with
  | nil => intro n; simp [sweep_from]
  | cons p ps ih =>
    intro n
    cases p with
    | ok u =>
      simp only [sweep_from]
      rw [ih (n + 1), ih 1, List.map_cons, List.map_map]
      simp only [Nat.add_zero]
      congr 1
      apply List.map_congr_left
      intro a _
      simp only [Function.comp_apply]
      omega
    | error e =>
      simp [sweep_from]

lemma range_succ_shift (n : Nat) :
    List.range (n + 1) = 0 :: (List.range n).map (1 + ·) := by
  rw [List.range_succ_eq_map]
  congr 1
  apply List.map_congr_left
  intro a _
  omega

lemma sweep_ok_all (ps : List (Except Unit Unit))
    (h : ∀ p ∈ ps, p = Except.ok ()) :
    update_cache_sweep ps = List.range ps.length := by
  unfold update_cache_sweep
  induction ps with
  | nil => simp [sweep_from]
  | cons p ps ih =>
    have hp : p = Except.ok () := h p (List.mem_cons_self p ps)
    subst hp
    simp only [sweep_from, List.length_cons]
    rw [sweep_from_shift ps 1, ih (fun q hq => h q (List.mem_cons_of_mem _ hq)),
      range_succ_shift]

lemma sweep_stops_aux (ps : List (Except Unit Unit)) (i : Nat)
    (herr : ps[i]? = some (Except.error ()))
    (hok : ∀ j, j < i → ps[j]? = some (Except.ok ())) :
    update_cache_sweep ps = List.range (i + 1) := by
  unfold update_cache_sweep
  induction ps generalizing i with
  | nil => simp at herr
  | cons p ps ih =>
    cases i with
    | zero =>
      simp only [List.getElem?_cons_zero, Option.some.injEq] at herr
      subst herr
      simp [sweep_from, List.range_succ]
    | succ j =>
      have hp : p = Except.ok () := by
        have := hok 0 (Nat.succ_pos j)
        simpa using this
      subst hp
      simp only [List.getElem?_cons_succ] at herr
      simp only [sweep_from]
      rw [sweep_from_shift ps 1, ih j herr
        (fun k hk => by
          have := hok (k + 1) (by omega)
          simpa using this)]
      rw [← range_succ_shift]

/-- C1: for every paper, every corpus context (author activity map and
trending-keyword list) and every point in time `now`, each of the three
paper scoring methods (hot, rising, new) returns a score between 0 and
100: each ends in the clamp `max(0, min(100, score))`. -/
theorem arxiv_scores_in_range :
    ∀ (p : Paper) (authorActivity : String → ℕ)
      (trendingKeywords : List String) (now : ℚ),
      (0 ≤ calculate_hot_score p authorActivity trendingKeywords now ∧
        calculate_hot_score p authorActivity trendingKeywords now ≤ 100) ∧
      (0 ≤ calculate_rising_score p trendingKeywords now ∧
        calculate_rising_score p trendingKeywords now ≤ 100) ∧
      (0 ≤ calculate_new_score p now ∧ calculate_new_score p now ≤ 100) := by
  intro p act kws now
  refine ⟨⟨?_, ?_⟩, ⟨?_, ?_⟩, ⟨?_, ?_⟩⟩ <;>
    simp only [calculate_hot_score, calculate_rising_score, calculate_new_score]
  all_goals
    first
    | exact le_max_left _ _
    | exact max_le (by norm_num) (min_le_left _ _)

/-- C2 counterexample: a batch of one story with 0 points and
`max_results = 1`.  Scoring raises no error, yet `get_hot_hn_stories`
returns 0 items while the claim demands `min(1, 1) = 1`: the story is
dropped by the `points == 0` filter, not by a scoring failure. -/
theorem hn_hot_points_filter_cex :
    (get_hot_hn_stories (fun _ => 0) [exZeroStory] 1).length = 0 ∧
    min 1 [exZeroStory].length = 1 := by
  constructor
  · simp [get_hot_hn_stories, exZeroStory, sortByScoreDesc]
  · rfl

/-- C2 amended: every pipeline returns at most `max_results` items; the
paper pipeline returns exactly `min(max_results, batch_size)` when scoring
raises on no item; the Hacker News pipelines return exactly
`min(max_results, filtered_batch_size)` where the filter drops stories
with `points == 0` (hot) respectively `points < 5` (rising) — for the
rising pipeline on batches with no story published in the future. -/
theorem rank_count_amended :
    (∀ (score : Paper → Except Unit ℚ) (papers : List Paper) (k : Nat),
      (get_trending_papers_fallible score papers k).length ≤ k) ∧
    (∀ (score : Paper → Except Unit ℚ) (papers : List Paper) (k : Nat),
      (∀ p ∈ papers, (score p).isOk = true) →
      (get_trending_papers_fallible score papers k).length = min k papers.length) ∧
    (∀ (rawScore : Story → ℚ) (stories : List Story) (k : Nat),
      (get_hot_hn_stories rawScore stories k).length =
        min k (stories.filter (fun s => !(s.points == 0))).length) ∧
    (∀ (stories : List Story) (now : ℚ) (k : Nat),
      (∀ s ∈ stories, s.published ≤ now) →
      (get_rising_hn_stories stories now k).length =
        min k (stories.filter (fun s => !(decide (s.points < 5)))).length) := by
  refine ⟨?_, ?_, ?_, ?_⟩
  · intro score papers k
    simp only [get_trending_papers_fallible]
    split
    · simp
    · split
      · simp
      · rw [List.length_map, List.length_take]
        exact min_le_left _ _
  · intro score papers k h
    obtain ⟨l, hl, hlen⟩ := scoreAll_ok_of_forall score papers h
    simp only [get_trending_papers_fallible]
    split
    · rename_i hemp
      rw [List.isEmpty_iff] at hemp
      subst hemp
      simp
    · simp only [hl]
      rw [List.length_map, List.length_take, sortByScoreDesc_length, hlen]
  · intro rawScore stories k
    simp only [get_hot_hn_stories]
    split
    · rename_i hemp
      rw [List.isEmpty_iff] at hemp
      subst hemp
      simp
    · split
      · rename_i hnil
        have hlen := sortByScoreDesc_length
          ((stories.filter (fun s => !(s.points == 0))).map (fun s => (s, rawScore s)))
        rw [hnil] at hlen
        simp only [List.length_nil] at hlen
        rw [List.length_map] at hlen
        simp [← hlen]
      · rename_i top rest hcons
        have hlen := sortByScoreDesc_length
          ((stories.filter (fun s => !(s.points == 0))).map (fun s => (s, rawScore s)))
        rw [hcons] at hlen
        rw [List.length_map] at hlen
        rw [List.length_take, List.length_map, hlen]
  · intro stories now k _h
    simp only [get_rising_hn_stories]
    split
    · rename_i hemp
      rw [List.isEmpty_iff] at hemp
      subst hemp
      simp
    · split
      · rename_i hnil
        have hlen := sortByScoreDesc_length
          ((stories.filter (fun s => !(decide (s.points < 5)))).map
            (fun s => (s, rising_raw_score s now)))
        rw [hnil] at hlen
        simp only [List.length_nil] at hlen
        rw [List.length_map] at hlen
        simp [← hlen]
      · rename_i top rest hcons
        have hlen := sortByScoreDesc_length
          ((stories.filter (fun s => !(decide (s.points < 5)))).map
            (fun s => (s, rising_raw_score s now)))
        rw [hcons] at hlen
        rw [List.length_map] at hlen
        rw [List.length_take, List.length_map, hlen]

/-- C2 witness: the amended count equations at concrete batches — one
paper with an error-free scorer, one 7-point story through the hot
pipeline, and the same story through the rising pipeline. -/
theorem rank_count_amended_witness :
    (get_trending_papers_fallible (fun _ => Except.ok 1) [exPaperA] 3).length =
      min 3 [exPaperA].length ∧
    (get_hot_hn_stories (fun _ => 0) [exGoodStory] 2).length =
      min 2 ([exGoodStory].filter (fun s => !(s.points == 0))).length ∧
    (get_rising_hn_stories [exGoodStory] 3600 2).length =
      min 2 ([exGoodStory].filter (fun s => !(decide (s.points < 5)))).length :=
  ⟨rank_count_amended.2.1 (fun _ => Except.ok 1) [exPaperA] 3 (by intro p _; rfl),
   rank_count_amended.2.2.1 (fun _ => 0) [exGoodStory] 2,
   rank_count_amended.2.2.2 [exGoodStory] 3600 2
     (by
       intro s hs
       rw [List.mem_singleton] at hs
       subst hs
       norm_num [exGoodStory])⟩

/-- C3: the hot score of every paper equals the spec's formula — the clamp
to [0,100] of `0.5 * (100/(age_days+1)) + 0.3 * min(100, 10*keywords)
+ 0.2 * min(100, 5*author_activity)` with the age floored at 0.1 days. -/
theorem hot_score_matches_spec :
    ∀ (p : Paper) (authorActivity : String → ℕ)
      (trendingKeywords : List String) (now : ℚ),
      calculate_hot_score p authorActivity trendingKeywords now =
        hot_score_spec p authorActivity trendingKeywords now := by
  intro p act kws now
  simp only [calculate_hot_score, hot_score_spec]
  ring_nf

/-- C4: one call to the time-windowed source cache.  With a nonempty cached
batch younger than the TTL the cached batch is returned and the state kept,
independently of the fetch outcome (the fetch is not consulted); otherwise
a successful fetch replaces batch and timestamp and returns the new batch,
and a raised fetch failure returns the previous batch unchanged (the empty
list when none was cached, since then `st.cache = []`). -/
theorem source_cache_behavior :
    ∀ {α : Type} (st : SourceCache α) (currentTime ttl : ℚ),
      ((st.cache ≠ [] ∧ currentTime - st.lastFetchTime < ttl) →
        ∀ r, fetch_with_cache st currentTime ttl r = (st.cache, st)) ∧
      (¬(st.cache ≠ [] ∧ currentTime - st.lastFetchTime < ttl) →
        ∀ items, fetch_with_cache st currentTime ttl (Except.ok items) =
          (items, ⟨items, currentTime⟩)) ∧
      (¬(st.cache ≠ [] ∧ currentTime - st.lastFetchTime < ttl) →
        fetch_with_cache st currentTime ttl (Except.error ()) = (st.cache, st)) := by
  intro α st currentTime ttl
  refine ⟨?_, ?_, ?_⟩
  · intro h r
    have hb : (!st.cache.isEmpty &&
        decide (currentTime - st.lastFetchTime < ttl)) = true := by
      simp [List.isEmpty_iff, h.1, h.2]
    simp [fetch_with_cache, hb]
  · intro h items
    have hb : (!st.cache.isEmpty &&
        decide (currentTime - st.lastFetchTime < ttl)) = false := by
      rw [Bool.and_eq_false_iff]
      by_cases hc : st.cache = []
      · left; simp [List.isEmpty_iff, hc]
      · right
        simp only [decide_eq_false_iff_not]
        intro hlt
        exact h ⟨hc, hlt⟩
    simp [fetch_with_cache, hb]
  · intro h
    have hb : (!st.cache.isEmpty &&
        decide (currentTime - st.lastFetchTime < ttl)) = false := by
      rw [Bool.and_eq_false_iff]
      by_cases hc : st.cache = []
      · left; simp [List.isEmpty_iff, hc]
      · right
        simp only [decide_eq_false_iff_not]
        intro hlt
        exact h ⟨hc, hlt⟩
    simp [fetch_with_cache, hb]

/-- C4 witness: a fresh nonempty cache is served untouched even when the
fetch would fail, and an expired cache with a failing fetch keeps the old
batch. -/
theorem source_cache_behavior_witness :
    fetch_with_cache (⟨[5], 0⟩ : SourceCache ℕ) 10 3600 (Except.error ()) =
      ([5], ⟨[5], 0⟩) ∧
    fetch_with_cache (⟨[5], 0⟩ : SourceCache ℕ) 9999 3600 (Except.ok [7]) =
      ([7], ⟨[7], 9999⟩) ∧
    fetch_with_cache (⟨[5], 0⟩ : SourceCache ℕ) 9999 3600 (Except.error ()) =
      ([5], ⟨[5], 0⟩) :=
  ⟨(source_cache_behavior ⟨[5], 0⟩ 10 3600).1
      ⟨by simp, by norm_num⟩ (Except.error ()),
   (source_cache_behavior ⟨[5], 0⟩ 9999 3600).2.1
      (by intro h; exact absurd h.2 (by norm_num)) [7],
   (source_cache_behavior ⟨[5], 0⟩ 9999 3600).2.2
      (by intro h; exact absurd h.2 (by norm_num))⟩

/-- C5 counterexample: the spec's own example — five producers of which the
second raises.  In the code one `try` wraps the whole sweep, so only
producers 0 and 1 run; producers 2, 3 and 4 are skipped in that sweep,
contradicting the claim that they are still invoked. -/
theorem sweep_skip_cex :
    update_cache_sweep exProducers = [0, 1] ∧
    2 ∉ update_cache_sweep exProducers ∧
    3 ∉ update_cache_sweep exProducers ∧
    4 ∉ update_cache_sweep exProducers := by
  decide

/-- C5 amended: in each background sweep the producers are invoked
sequentially; when none raises all are invoked, but when one raises its
error is swallowed at the sweep level (the model is a total function and
the loop proceeds to the next sweep) and the producers after the first
raiser are skipped for that sweep: exactly producers `0..i` run when
producer `i` is the first to raise. -/
theorem sweep_stops_at_first_error :
    (∀ ps : List (Except Unit Unit), (∀ p ∈ ps, p = Except.ok ()) →
      update_cache_sweep ps = List.range ps.length) ∧
    (∀ (ps : List (Except Unit Unit)) (i : Nat),
      ps[i]? = some (Except.error ()) →
      (∀ j, j < i → ps[j]? = some (Except.ok ())) →
      update_cache_sweep ps = List.range (i + 1)) :=
  ⟨sweep_ok_all, sweep_stops_aux⟩

/-- C5 witness: the amended sweep behaviour at concrete producer lists —
an all-ok sweep of length two and a three-producer sweep whose second
producer raises. -/
theorem sweep_stops_witness :
    update_cache_sweep [Except.ok (), Except.ok ()] = List.range 2 ∧
    update_cache_sweep [Except.ok (), Except.error (), Except.ok ()] =
      List.range 2 :=
  ⟨sweep_stops_at_first_error.1 [Except.ok (), Except.ok ()]
     (by intro p hp; fin_cases hp <;> rfl),
   sweep_stops_at_first_error.2 [Except.ok (), Except.error (), Except.ok ()] 1
     rfl
     (by
       intro j hj
       have hj0 : j = 0 := by omega
       subst hj0
       rfl)⟩

/-- C6 counterexample: a batch of two papers where scoring raises on the
first and succeeds on the second; the pipeline returns `[]` instead of the
surviving second paper — the failure aborts the whole batch. -/
theorem item_failure_aborts_cex :
    exBadScore exPaperA = Except.error () ∧
    exBadScore exPaperB = Except.ok 1 ∧
    get_trending_papers_fallible exBadScore [exPaperA, exPaperB] 10 = [] := by
  refine ⟨rfl, rfl, ?_⟩
  simp [get_trending_papers_fallible, scoreAll, exBadScore, exPaperA, exPaperB]

/-- C6 amended: a scoring failure on any single item of the batch empties
the whole result — the pipeline's one `try` converts the raised error into
`[]` for the entire batch instead of skipping the one item. -/
theorem item_failure_aborts_batch :
    ∀ (score : Paper → Except Unit ℚ) (papers : List Paper) (k : Nat),
      (∃ p ∈ papers, score p = Except.error ()) →
      get_trending_papers_fallible score papers k = [] := by
  intro score papers k h
  simp only [get_trending_papers_fallible]
  split
  · rfl
  · simp only [scoreAll_error_of_exists score papers h]

/-- C6 witness: the amended statement at the concrete two-paper batch with
the scorer that raises on the first paper. -/
theorem item_failure_aborts_witness :
    get_trending_papers_fallible exBadScore [exPaperA, exPaperB] 3 = [] :=
  item_failure_aborts_batch exBadScore [exPaperA, exPaperB] 3
    ⟨exPaperA, by simp, rfl⟩

/-- C7: holding everything but the publication timestamp fixed, the
new-method score is monotonically non-increasing in the age
`now - published`; and for three otherwise-identical zero-signal papers
aged 0.5, 10 and 200 days the scores are strictly decreasing with age. -/
theorem new_score_age_antitone :
    (∀ (now : ℚ) (p q : Paper), now - q.published ≤ now - p.published →
      calculate_new_score p now ≤ calculate_new_score q now) ∧
    (calculate_new_score (exNewPaper (-17280000)) 0 <
        calculate_new_score (exNewPaper (-864000)) 0 ∧
      calculate_new_score (exNewPaper (-864000)) 0 <
        calculate_new_score (exNewPaper (-43200)) 0) := by
  refine ⟨?_, ?_, ?_⟩
  · intro now p q h
    simp only [calculate_new_score]
    have ht : max ((now - q.published) / (3600 * 24)) (1 / 10) ≤
        max ((now - p.published) / (3600 * 24)) (1 / 10) :=
      max_le_max (by linarith) le_rfl
    have := new_piece_mono _ _ ht
    exact max_le_max le_rfl (min_le_min le_rfl this)
  · norm_num [calculate_new_score, exNewPaper]
  · norm_num [calculate_new_score, exNewPaper]

/-- C7 witness: the monotone part at two concrete papers aged 1 day and 0
days. -/
theorem new_score_age_antitone_witness :
    calculate_new_score (exNewPaper (-86400)) 0 ≤
      calculate_new_score (exNewPaper 0) 0 :=
  new_score_age_antitone.1 0 (exNewPaper (-86400)) (exNewPaper 0)
    (by norm_num [exNewPaper])

/-- C8: the hours-based recency score of `get_new_hn_stories` evaluated at
the claim's boundary.  It is 100 at 0 hours, but at 24 hours it is 4, not
0 — `max(0, 100 - h*4)` reaches 0 only at 25 hours — contradicting the
claim (and the code's own comment `Scale from 100 (now) to 0 (24+ hours
old)`). -/
theorem hn_recency_divergence :
    hn_new_recency_score 0 = 100 ∧
    hn_new_recency_score 24 = 4 ∧
    hn_new_recency_score 25 = 0 := by
  refine ⟨?_, ?_, ?_⟩ <;> norm_num [hn_new_recency_score]

/-- C9: the descending sort used by the ranking pipelines is stable — for
every score value, the equally-scored items appear in the output in
exactly their input order (the filtered sublists coincide). -/
theorem rank_sort_stable :
    ∀ (α : Type) (l : List (α × ℚ)) (s : ℚ),
      (sortByScoreDesc l).filter (fun x => decide (x.2 = s)) =
        l.filter (fun x => decide (x.2 = s)) := by
  intro α l s
  set le : (α × ℚ) → (α × ℚ) → Bool := fun a b => decide (b.2 ≤ a.2) with hle
  have htrans : ∀ (a b c : α × ℚ), le a b → le b c → le a c := by
    intro a b c hab hbc
    simp only [hle, decide_eq_true_eq] at *
    exact le_trans hbc hab
  have htotal : ∀ (a b : α × ℚ), le a b || le b a := by
    intro a b
    simp only [hle, Bool.or_eq_true, decide_eq_true_eq]
    exact le_total _ _
  set p : (α × ℚ) → Bool := fun x => decide (x.2 = s) with hp
  have hpair : (l.filter p).Pairwise (fun a b => le a b) := by
    apply List.pairwise_of_forall_mem_list
    intro a ha b hb
    have ha2 := (List.mem_filter.mp ha).2
    have hb2 := (List.mem_filter.mp hb).2
    simp only [hp, decide_eq_true_eq] at ha2 hb2
    simp only [hle, decide_eq_true_eq, ha2, hb2]
    exact le_refl _
  have hsub : List.Sublist (l.filter p) (sortByScoreDesc l) :=
    List.sublist_mergeSort htrans htotal hpair (List.filter_sublist l)
  have hself : (l.filter p).filter p = l.filter p := by
    apply List.filter_eq_self.mpr
    intro a ha
    exact (List.mem_filter.mp ha).2
  have hsub2 : List.Sublist (l.filter p) ((sortByScoreDesc l).filter p) := by
    have := hsub.filter p
    rwa [hself] at this
  have hlen : ((sortByScoreDesc l).filter p).length = (l.filter p).length := by
    have hperm : List.Perm (sortByScoreDesc l) l := List.mergeSort_perm l le
    exact (hperm.filter p).length_eq
  exact (hsub2.eq_of_length hlen.symm).symm

/-- C10: for every sort method whose lowercasing is neither "hot" nor
"rising", the paper ranking pipeline behaves exactly as with method "new"
— the `else` branch scores every paper with the pure-recency method and no
failure occurs (the model is a total function). -/
theorem unknown_method_uses_new :
    ∀ (m : String) (papers : List Paper) (authorActivity : String → ℕ)
      (trendingKeywords : List String) (now : ℚ) (k : Nat),
      pyLower m ≠ "hot" → pyLower m ≠ "rising" →
      get_trending_arxiv_papers m papers authorActivity trendingKeywords now k =
        get_trending_arxiv_papers "new" papers authorActivity trendingKeywords now k := by
  intro m papers act kws now k h1 h2
  have h3 : pyLower "new" = "new" := by decide
  have h4 : ¬(("new" : String) = "hot") := by decide
  have h5 : ¬(("new" : String) = "rising") := by decide
  simp only [get_trending_arxiv_papers, score_for_method, h1, h2, h3, h4, h5,
    if_false]

/-- C10 witness: the method "Fresh" (not hot, not rising after
lowercasing) ranks a concrete batch exactly as "new" does. -/
theorem unknown_method_uses_new_witness :
    pyLower "Fresh" ≠ "hot" ∧ pyLower "Fresh" ≠ "rising" ∧
    get_trending_arxiv_papers "Fresh" [exPaperA] (fun _ => 0) [] 0 5 =
      get_trending_arxiv_papers "new" [exPaperA] (fun _ => 0) [] 0 5 :=
  ⟨by decide, by decide,
   unknown_method_uses_new "Fresh" [exPaperA] (fun _ => 0) [] 0 5
     (by decide) (by decide)⟩
